import Mathlib

/-!
Verification of the object-storage access layer in src/S3Tools.js.

The development shallowly embeds the four operations of the S3Tools class
(getObject, putJsonObject, _formatGetObjectResponse, emptyS3Directory)
together with executable models of their external collaborators:

* the JavaScript dynamic values the methods validate with typeof checks,
* JSON.stringify / JSON.parse over a concrete JSON document type,
* zlib gzip compression as an opaque invertible header-tagged encoding,
* the storage client (cli) as a trace of per-attempt outcomes,
* utils.retry, which lives in ./utils and is not part of the sources,
  modelled from the specification of the retry executor.

Buffers are modelled as lists of characters; UTF-8 encoding and decoding
between Buffer and string is the identity on that representation.
-/

namespace S3JS

/-! ## Characters and small parsing utilities -/

/-- Opening curly brace character, written by code point. -/
def lbrace : Char := Char.ofNat 123

/-- Closing curly brace character, written by code point. -/
def rbrace : Char := Char.ofNat 125

/-- Decimal digit test on a character. -/
def isDig (c : Char) : Bool := 48 ≤ c.toNat && c.toNat ≤ 57

/-- The character of a decimal digit (digits 0 to 9). -/
def digCh : Nat → Char
  | 0 => '0' | 1 => '1' | 2 => '2' | 3 => '3' | 4 => '4'
  | 5 => '5' | 6 => '6' | 7 => '7' | 8 => '8' | _ => '9'

/-- Consume an expected literal from the front of the input. -/
def dropLit : List Char → List Char → Option (List Char)
  | [], s => some s
  | _ :: _, [] => none
  | c :: cs, d :: s => if c = d then dropLit cs s else none

/-- Scan a run of leading decimal digits, folding them onto an accumulator,
and return the accumulated number together with the unconsumed input. -/
def parseNatAux : List Char → Nat → Nat × List Char
  | [], acc => (acc, [])
  | c :: r, acc =>
    if isDig c then parseNatAux r (acc * 10 + (c.toNat - 48)) else (acc, c :: r)

/-- Decimal digits of a natural number, most significant first. -/
def natToChars (n : Nat) : List Char :=
  if n < 10 then [digCh n] else natToChars (n / 10) ++ [digCh (n % 10)]
  termination_by n
  decreasing_by exact Nat.div_lt_self (by omega) (by omega)

/-- Decimal rendering of an integer, with a leading minus sign if negative. -/
def intToChars : Int → List Char
  | .ofNat n => natToChars n
  | .negSucc m => '-' :: natToChars (m + 1)

/-- Body of a JSON string literal: backslash-escape quotes and backslashes. -/
def strBodyChars : List Char → List Char
  | [] => []
  | c :: cs => (if c = '"' ∨ c = '\\' then ['\\', c] else [c]) ++ strBodyChars cs

mutual

/-- Parse the body of a JSON string literal up to the closing quote, undoing
the backslash escapes, and return the decoded characters and the rest. -/
def parseStrBody : List Char → Option (List Char × List Char)
  | [] => none
  | c :: r =>
    if c = '"' then some ([], r)
    else if c = '\\' then parseStrEsc r
    else (parseStrBody r).map (fun p => (c :: p.1, p.2))

/-- Continuation of parseStrBody after a backslash: take the next character
literally. -/
def parseStrEsc : List Char → Option (List Char × List Char)
  | [] => none
  | e :: r2 => (parseStrBody r2).map (fun p => (e :: p.1, p.2))

end

/-! ## JSON documents

A concrete model of the JSON-like structured values that putJsonObject
serializes and the "object" return type of getObject parses.  Arrays and
object field lists are separate mutual inductives so that structural
recursion and induction stay first-order.  Numbers are integers: the
floating-point aspects of JavaScript numbers are outside this model. -/

mutual

inductive Json where
  | null : Json
  | bool (b : Bool) : Json
  | num (n : Int) : Json
  | str (s : List Char) : Json
  | arr (elems : JsonList) : Json
  | obj (fields : JsonFields) : Json

inductive JsonList where
  | nil : JsonList
  | cons (hd : Json) (tl : JsonList) : JsonList

inductive JsonFields where
  | nil : JsonFields
  | cons (key : List Char) (val : Json) (tl : JsonFields) : JsonFields

end

mutual

/-- Model of JSON.stringify on a JSON document (no added whitespace). -/
def Json.stringify : Json → List Char
  | .null => 'n' :: "ull".data
  | .bool true => 't' :: "rue".data
  | .bool false => 'f' :: "alse".data
  | .num n => intToChars n
  | .str s => '"' :: (strBodyChars s ++ ['"'])
  | .arr .nil => ['[', ']']
  | .arr (.cons x tl) => '[' :: (JsonList.stringifyElems x tl ++ [']'])
  | .obj .nil => [lbrace, rbrace]
  | .obj (.cons k v tl) => lbrace :: (JsonFields.stringifyFields k v tl ++ [rbrace])
  termination_by j => sizeOf j

/-- Comma-separated rendering of a nonempty array element list. -/
def JsonList.stringifyElems : Json → JsonList → List Char
  | x, .nil => x.stringify
  | x, .cons y tl => x.stringify ++ ',' :: JsonList.stringifyElems y tl
  termination_by x tl => 1 + sizeOf x + sizeOf tl

/-- Comma-separated rendering of a nonempty object field list. -/
def JsonFields.stringifyFields : List Char → Json → JsonFields → List Char
  | k, v, .nil => ('"' :: (strBodyChars k ++ ['"'])) ++ ':' :: v.stringify
  | k, v, .cons k2 v2 tl =>
    (('"' :: (strBodyChars k ++ ['"'])) ++ ':' :: v.stringify)
      ++ ',' :: JsonFields.stringifyFields k2 v2 tl
  termination_by _k v tl => 1 + sizeOf v + sizeOf tl

end

/-- Parse a number after a leading minus sign: at least one digit must
follow. -/
def parseNegNum : List Char → Option (Json × List Char)
  | [] => none
  | c2 :: r2 =>
    if isDig c2 then
      let p := parseNatAux (c2 :: r2) 0
      some (Json.num (-(p.1 : Int)), p.2)
    else none

mutual

/-- Recursive-descent parser for a single JSON value, returning the value and
the unconsumed input.  The fuel argument bounds the nesting the parser will
enter; the top-level wrapper passes enough fuel for any input. -/
def parseVal : Nat → List Char → Option (Json × List Char)
  | 0, _ => none
  | fuel + 1, s =>
    match s with
    | [] => none
    | c :: r =>
      if c = 'n' then (dropLit "ull".data r).map (fun r2 => (Json.null, r2))
      else if c = 't' then (dropLit "rue".data r).map (fun r2 => (Json.bool true, r2))
      else if c = 'f' then (dropLit "alse".data r).map (fun r2 => (Json.bool false, r2))
      else if c = '"' then (parseStrBody r).map (fun p => (Json.str p.1, p.2))
      else if c = '[' then parseArrBody fuel r
      else if c = lbrace then parseObjBody fuel r
      else if c = '-' then parseNegNum r
      else if isDig c then
        let p := parseNatAux (c :: r) 0
        some (Json.num (p.1 : Int), p.2)
      else none

/-- Continuation after an opening bracket: an immediately closed empty
array, or a nonempty element list. -/
def parseArrBody : Nat → List Char → Option (Json × List Char)
  | 0, _ => none
  | _ + 1, [] => none
  | fuel + 1, c2 :: r2 =>
    if c2 = ']' then some (Json.arr .nil, r2)
    else (parseElems fuel (c2 :: r2)).map (fun p => (Json.arr p.1, p.2))

/-- Continuation after an opening brace: an immediately closed empty
object, or a nonempty field list. -/
def parseObjBody : Nat → List Char → Option (Json × List Char)
  | 0, _ => none
  | _ + 1, [] => none
  | fuel + 1, c2 :: r2 =>
    if c2 = rbrace then some (Json.obj .nil, r2)
    else (parseFields fuel (c2 :: r2)).map (fun p => (Json.obj p.1, p.2))

/-- Parse the elements of a nonempty array, consuming the closing bracket. -/
def parseElems : Nat → List Char → Option (JsonList × List Char)
  | 0, _ => none
  | fuel + 1, s =>
    match parseVal fuel s with
    | none => none
    | some (j, r) =>
      match r with
      | [] => none
      | c :: r2 =>
        if c = ',' then (parseElems fuel r2).map (fun p => (JsonList.cons j p.1, p.2))
        else if c = ']' then some (JsonList.cons j .nil, r2)
        else none

/-- Parse the fields of a nonempty object, consuming the closing brace. -/
def parseFields : Nat → List Char → Option (JsonFields × List Char)
  | 0, _ => none
  | fuel + 1, s =>
    match s with
    | [] => none
    | c :: r =>
      if c = '"' then
        match parseStrBody r with
        | none => none
        | some (k, r2) =>
          match r2 with
          | [] => none
          | c2 :: r3 =>
            if c2 = ':' then
              match parseVal fuel r3 with
              | none => none
              | some (v, r4) =>
                match r4 with
                | [] => none
                | c3 :: r5 =>
                  if c3 = ',' then
                    (parseFields fuel r5).map (fun p => (JsonFields.cons k v p.1, p.2))
                  else if c3 = rbrace then some (JsonFields.cons k v .nil, r5)
                  else none
            else none
      else none

end

/-- Model of JSON.parse: parse one value and require the input be consumed
exactly; any failure corresponds to the SyntaxError JSON.parse throws. -/
def jsonParse (s : List Char) : Option Json :=
  match parseVal (2 * s.length + 2) s with
  | some (j, []) => some j
  | _ => none

/-! ## JavaScript dynamic values

The S3Tools methods take untyped arguments and guard them with typeof
checks, so the embedding passes arguments as a small dynamic-value type.
Objects and arrays are carried as JSON documents (the only structured
values putJsonObject serializes); null is separate because
typeof null = "object" in JavaScript. -/

inductive JsVal where
  | str (s : String)
  | num (n : Int)
  | boolean (b : Bool)
  | undefined
  | null
  | jsonObj (j : Json)

/-- The JavaScript typeof operator on the modelled values. -/
def jsTypeof : JsVal → String
  | .str _ => "string"
  | .num _ => "number"
  | .boolean _ => "boolean"
  | .undefined => "undefined"
  | .null => "object"
  | .jsonObj _ => "object"

/-- Default-parameter substitution: an omitted or undefined argument takes
the declared default, any other value is kept. -/
def jsDefault (v d : JsVal) : JsVal :=
  match v with
  | .undefined => d
  | x => x

/-- GET_OBJECT_RETURN_TYPE_ALLOWED.indexOf(returnType) !== -1: the argument
is one of the four allowed return-type strings. -/
def isAllowedRT : JsVal → Bool
  | .str s => s == "string" || s == "buffer" || s == "object" || s == "all"
  | _ => false

/-- The boolean carried by a validated gzip argument (false otherwise). -/
def jsBoolVal : JsVal → Bool
  | .boolean b => b
  | _ => false

/-- JSON.stringify restricted to the values that pass the typeof json =
"object" validation of putJsonObject. -/
def jsonStringifyJs : JsVal → Option (List Char)
  | .null => some "null".data
  | .jsonObj j => some (Json.stringify j)
  | _ => none

/-! ## Errors and payloads -/

/-- The failures getObject / putJsonObject / emptyS3Directory can surface.
syntaxError is the SyntaxError thrown by JSON.parse (the FormatError of the
specification); gunzipError is the zlib error for a malformed compressed
stream (the DecompressionError); typeError covers calling a method on
undefined, handing undefined to zlib, and calling .bind on a Promise. -/
inductive S3Error where
  | badParam (fn : String)
  | fileNotFound
  | transport (retryable : Bool) (errId : Nat)
  | gunzipError
  | syntaxError
  | typeError
deriving DecidableEq

/-- Response envelope of a successful cli.getObject call.  body = none
models a response whose Body is missing or is not a Buffer, the condition
tested by !data.Body || !Buffer.isBuffer(data.Body). -/
structure GetData where
  body : Option (List Char)
deriving DecidableEq

/-- The value resolved by getObject: a Buffer, a decoded string, a parsed
document, the whole envelope (returnType "all"), or the JavaScript
undefined that the "buffer" branch resolves when Body is absent. -/
inductive FormattedOut where
  | bytes (b : List Char)
  | str (s : String)
  | json (j : Json)
  | envelope (d : GetData)
  | undef

/-! ## The zlib collaborator

Model of the external gzip codec: an opaque invertible encoding tagged
with the two gzip magic bytes.  It satisfies the interface the source
relies on: gunzip inverts gzipCompress, and a stream without the header
fails with the zlib error. -/

/-- The two gzip magic bytes, as characters. -/
def gzMagic : List Char := [Char.ofNat 31, Char.ofNat 139]

/-- Model of gzip compression (header-tagged identity encoding). -/
def gzipCompress (b : List Char) : List Char := gzMagic ++ b

/-- Model of zlib.gunzip: strip the header or fail with the zlib error. -/
def gunzip : List Char → Except S3Error (List Char)
  | c1 :: c2 :: rest =>
    if c1 = Char.ofNat 31 ∧ c2 = Char.ofNat 139 then .ok rest else .error .gunzipError
  | _ => .error .gunzipError

/-! ## _formatGetObjectResponse -/

/-- Embedding of S3Tools._formatGetObjectResponse.  The switch is on the
returnType argument; any value other than the three handled strings falls
through to the default branch, which resolves the envelope unchanged.
When Body is absent (possible only via the retry path of getObject, which
skips the Body check): the "buffer"/!gzip branch resolves undefined, the
"string"/"object" branches throw a TypeError calling toString on
undefined, and the gzip branches throw a TypeError inside zlib.gunzip. -/
def formatGetObjectResponse (data : GetData) (returnType : JsVal) (gzip : Bool) :
    Except S3Error FormattedOut :=
  match returnType with
  | .str "buffer" =>
    match data.body, gzip with
    | some b, false => .ok (.bytes b)
    | some b, true => (gunzip b).map .bytes
    | none, false => .ok .undef
    | none, true => .error .typeError
  | .str "string" =>
    match data.body, gzip with
    | some b, false => .ok (.str (String.mk b))
    | some b, true => (gunzip b).map (fun d => .str (String.mk d))
    | none, _ => .error .typeError
  | .str "object" =>
    match data.body, gzip with
    | some b, false =>
      match jsonParse b with
      | some j => .ok (.json j)
      | none => .error .syntaxError
    | some b, true =>
      (gunzip b).bind (fun d =>
        match jsonParse d with
        | some j => .ok (.json j)
        | none => .error .syntaxError)
    | none, _ => .error .typeError
  | _ => .ok (.envelope data)

/-! ## The storage client and the retry executor -/

/-- Outcome of one remote attempt: a failure carrying the transport's
retryable classification and an identifying number, or a success. -/
inductive Attempt (α : Type) where
  | failure (retryable : Bool) (errId : Nat)
  | success (val : α)

/-- Modelled from the spec: utils.retry, loaded from ./utils, is not under
src/, so the retry executor is taken from its contract in §4.1: run the
operation up to maxAttempts total attempts (including its own first); a
non-retryable failure propagates immediately; on exhaustion the error of
the final attempt is surfaced.  The backend maps the index of a remote
attempt to its outcome, and idx is the index of the executor's first
attempt; the result counts the attempts consumed.  The spec requires
maxAttempts to be at least 1, so the 0 case is unreachable. -/
def retry {α : Type} : Nat → (Nat → Attempt α) → Nat → Nat × Except S3Error α
  | 0, _, _ => (0, .error (.transport false 0))
  | maxA + 1, backend, idx =>
    match backend idx with
    | .success v => (1, .ok v)
    | .failure r e =>
      if r ∧ maxA ≠ 0 then
        let rec2 := retry maxA backend (idx + 1)
        (rec2.1 + 1, rec2.2)
      else (1, .error (.transport r e))

/-- Result of a getObject invocation: how many remote Get attempts were
issued, and the settled promise. -/
structure GetResult where
  calls : Nat
  result : Except S3Error FormattedOut

/-- Embedding of S3Tools.getObject.  Arguments are dynamic values; the
returnType and gzip parameters default to "object" and false.  Validation
rejects with the BAD_PARAM_GetObject error before any remote call when a
typeof check or the return-type membership test fails.  The first Get is
issued directly; a retryable failure hands the call to utils.retry with
the configured retryMax, and a success of the retried call is formatted
WITHOUT the missing-Body check, which guards only the first-attempt path. -/
def getObject (retryMax : Nat) (backend : Nat → Attempt GetData)
    (bucket key : JsVal) (returnType : JsVal := .undefined)
    (gzip : JsVal := .undefined) : GetResult :=
  let rt := jsDefault returnType (.str "object")
  let gz := jsDefault gzip (.boolean false)
  if jsTypeof bucket ≠ "string" ∨ jsTypeof key ≠ "string"
      ∨ ¬ isAllowedRT rt ∨ jsTypeof gz ≠ "boolean" then
    ⟨0, .error (.badParam "GetObject")⟩
  else
    let gzB := jsBoolVal gz
    match backend 0 with
    | .failure r e =>
      if r then
        let rr := retry retryMax backend 1
        match rr.2 with
        | .ok d => ⟨1 + rr.1, formatGetObjectResponse d rt gzB⟩
        | .error err => ⟨1 + rr.1, .error err⟩
      else ⟨1, .error (.transport false e)⟩
    | .success d =>
      match d.body with
      | none => ⟨1, .error .fileNotFound⟩
      | some _ => ⟨1, formatGetObjectResponse d rt gzB⟩

/-- Result of a putJsonObject invocation: remote Put attempts issued, the
Body string sent with them (none when validation failed before building
the request), and the settled promise carrying the service ack. -/
structure PutResult where
  calls : Nat
  sentBody : Option (List Char)
  result : Except S3Error Nat

/-- Embedding of S3Tools.putJsonObject.  Validation is the typeof check of
line 69; the request Body is JSON.stringify(json); retry handling mirrors
getObject. -/
def putJsonObject (retryMax : Nat) (backend : Nat → Attempt Nat)
    (bucket key json : JsVal) : PutResult :=
  if jsTypeof bucket ≠ "string" ∨ jsTypeof key ≠ "string"
      ∨ jsTypeof json ≠ "object" then
    ⟨0, none, .error (.badParam "PutObject")⟩
  else
    let body := jsonStringifyJs json
    match backend 0 with
    | .failure r e =>
      if r then
        let rr := retry retryMax backend 1
        ⟨1 + rr.1, body, rr.2⟩
      else ⟨1, body, .error (.transport false e)⟩
    | .success ack => ⟨1, body, .ok ack⟩

/-! ## emptyS3Directory -/

/-- One page of a listObjectsV2 response: the listed keys and the
IsTruncated flag.  The storage service is modelled as the queue of pages
remaining under the prefix; a List returns the head page and a batched
Delete of its keys pops it. -/
structure ListPage where
  contents : List String
  isTruncated : Bool
deriving DecidableEq

/-- Observable outcome of an emptyS3Directory call: the (bucket, dir)
arguments of every List call eventually issued, the key batches of every
Delete call eventually issued, the settlement of the promise returned to
the caller, and the pages still under the prefix afterwards. -/
structure EmptyResult where
  listArgs : List (JsVal × JsVal)
  deleteBatches : List (List String)
  outcome : Except S3Error Unit
  remaining : List ListPage

/-- Embedding of S3Tools.emptyS3Directory.  The method performs no input
validation.  It lists a page; an empty Contents returns success; otherwise
it batch-deletes the page's keys.  When IsTruncated is set, line 157 runs
await this.emptyS3Directory(bucket, dir).bind(this): the recursive call is
started (so its List/Delete traffic still happens and later pages are
still drained, detached from the caller), but .bind is then read from the
returned Promise, which has no such method, so the enclosing async
function throws a TypeError and its promise rejects. -/
def emptyS3Directory (bucket dir : JsVal) : List ListPage → EmptyResult
  | [] => ⟨[(bucket, dir)], [], .ok (), []⟩
  | page :: rest =>
    if page.contents.length = 0 then ⟨[(bucket, dir)], [], .ok (), page :: rest⟩
    else if page.isTruncated then
      let r := emptyS3Directory bucket dir rest
      ⟨(bucket, dir) :: r.listArgs, page.contents :: r.deleteBatches,
        .error .typeError, r.remaining⟩
    else ⟨[(bucket, dir)], [page.contents], .ok (), rest⟩

/-- Number of nested emptyS3Directory activations for a given page queue:
the measure of the call-stack frames the self-recursion of line 157
creates. -/
def emptyS3DirectoryDepth : List ListPage → Nat
  | [] => 1
  | page :: rest =>
    if page.contents.length = 0 then 1
    else if page.isTruncated then 1 + emptyS3DirectoryDepth rest
    else 1

/-! ## Lemmas: the decimal and string scanners invert their renderers -/

/-- Whether the input starts with a decimal digit (the only boundary the
greedy number scanner can run across). -/
def digHead : List Char → Bool
  | [] => false
  | c :: _ => isDig c

theorem dropLit_self (lit rest : List Char) : dropLit lit (lit ++ rest) = some rest := by
  induction lit with
  | nil => rfl
  | cons c cs ih => simpa [dropLit] using ih

theorem digCh_toNat (d : Nat) (h : d < 10) : (digCh d).toNat = 48 + d := by
  interval_cases d <;> decide

theorem isDig_digCh (d : Nat) (h : d < 10) : isDig (digCh d) = true := by
  interval_cases d <;> decide

theorem natToChars_ne_nil (n : Nat) : natToChars n ≠ [] := by
  rw [natToChars]
  split
  · simp
  · simp

theorem natToChars_head_digit (n : Nat) :
    ∃ c cs, natToChars n = c :: cs ∧ isDig c = true := by
  induction n using Nat.strong_induction_on with
  | _ n ih =>
    rw [natToChars]
    split
    · exact ⟨digCh n, [], rfl, isDig_digCh n (by omega)⟩
    · rename_i h
      obtain ⟨c, cs, hc, hd⟩ := ih (n / 10) (Nat.div_lt_self (by omega) (by omega))
      exact ⟨c, cs ++ [digCh (n % 10)], by rw [hc]; rfl, hd⟩

theorem parseNatAux_stop (acc : Nat) (rest : List Char) (h : digHead rest = false) :
    parseNatAux rest acc = (acc, rest) := by
  cases rest with
  | nil => rfl
  | cons c r => simp only [digHead] at h; simp [parseNatAux, h]

theorem parseNatAux_natToChars (n : Nat) :
    ∀ (rest : List Char) (acc : Nat),
      parseNatAux (natToChars n ++ rest) acc
        = parseNatAux rest (acc * 10 ^ (natToChars n).length + n) := by
  induction n using Nat.strong_induction_on with
  | _ n ih =>
    intro rest acc
    by_cases h : n < 10
    · rw [natToChars, if_pos h]
      simp [parseNatAux, isDig_digCh n h, digCh_toNat n h]
    · rw [natToChars, if_neg h]
      have hlt : n / 10 < n := Nat.div_lt_self (by omega) (by omega)
      rw [List.append_assoc, List.singleton_append, ih (n / 10) hlt]
      have hm : n % 10 < 10 := Nat.mod_lt n (by omega)
      simp only [parseNatAux, isDig_digCh (n % 10) hm, if_pos, digCh_toNat (n % 10) hm,
        List.length_append, List.length_cons, List.length_nil]
      congr 1
      have hdm : 10 * (n / 10) + n % 10 = n := Nat.div_add_mod n 10
      rw [pow_succ]
      generalize (10 : Nat) ^ (natToChars (n / 10)).length = X
      ring_nf
      omega

theorem parseStrBody_rt (s : List Char) :
    ∀ rest : List Char, parseStrBody (strBodyChars s ++ '"' :: rest) = some (s, rest) := by
  induction s with
  | nil => intro rest; simp [strBodyChars, parseStrBody]
  | cons c cs ih =>
    intro rest
    by_cases h : c = '"' ∨ c = '\\'
    · have hq : ('\\' : Char) ≠ '"' := by decide
      simp [strBodyChars, h, parseStrBody, parseStrEsc, hq, ih rest]
    · push_neg at h
      simp [strBodyChars, h, parseStrBody, h.1, h.2, ih rest]

/-! ## Lemmas: dispatch characters -/

theorem isDig_ne_marks (c : Char) (h : isDig c = true) :
    c ≠ 'n' ∧ c ≠ 't' ∧ c ≠ 'f' ∧ c ≠ '"' ∧ c ≠ '[' ∧ c ≠ lbrace ∧ c ≠ '-' ∧ c ≠ ']' := by
  refine ⟨?_, ?_, ?_, ?_, ?_, ?_, ?_, ?_⟩ <;>
    · intro e; subst e; revert h; decide

theorem stringify_head_ne_rbracket (j : Json) :
    ∃ c cs, Json.stringify j = c :: cs ∧ c ≠ ']' := by
  cases j with
  | null => exact ⟨'n', "ull".data, by simp [Json.stringify], by decide⟩
  | bool b => cases b with
    | true => exact ⟨'t', "rue".data, by simp [Json.stringify], by decide⟩
    | false => exact ⟨'f', "alse".data, by simp [Json.stringify], by decide⟩
  | num n =>
    cases n with
    | ofNat m =>
      obtain ⟨c, cs, hm, hd⟩ := natToChars_head_digit m
      exact ⟨c, cs, by simp [Json.stringify, intToChars, hm], (isDig_ne_marks c hd).2.2.2.2.2.2.2⟩
    | negSucc m =>
      exact ⟨'-', natToChars (m + 1), by simp [Json.stringify, intToChars], by decide⟩
  | str s => exact ⟨'"', strBodyChars s ++ ['"'], by simp [Json.stringify], by decide⟩
  | arr elems => cases elems with
    | nil => exact ⟨'[', [']'], by simp [Json.stringify], by decide⟩
    | cons x tl =>
      exact ⟨'[', JsonList.stringifyElems x tl ++ [']'], by simp [Json.stringify], by decide⟩
  | obj fields => cases fields with
    | nil => exact ⟨lbrace, [rbrace], by simp [Json.stringify], by decide⟩
    | cons k v tl =>
      exact ⟨lbrace, JsonFields.stringifyFields k v tl ++ [rbrace],
        by simp [Json.stringify], by decide⟩

theorem stringify_length_pos (j : Json) : 1 ≤ (Json.stringify j).length := by
  obtain ⟨c, cs, hc, _⟩ := stringify_head_ne_rbracket j
  rw [hc]
  simp

theorem stringifyElems_head_ne_rbracket (x : Json) (tl : JsonList) :
    ∃ c cs, JsonList.stringifyElems x tl = c :: cs ∧ c ≠ ']' := by
  obtain ⟨c, cs, hc, hne⟩ := stringify_head_ne_rbracket x
  cases tl with
  | nil => exact ⟨c, cs, by simp [JsonList.stringifyElems, hc], hne⟩
  | cons y tl2 =>
    exact ⟨c, cs ++ ',' :: JsonList.stringifyElems y tl2,
      by simp [JsonList.stringifyElems, hc], hne⟩

theorem stringifyFields_head (k : List Char) (v : Json) (tl : JsonFields) :
    ∃ cs, JsonFields.stringifyFields k v tl = '"' :: cs := by
  cases tl with
  | nil =>
    exact ⟨strBodyChars k ++ '"' :: ':' :: v.stringify,
      by simp [JsonFields.stringifyFields]⟩
  | cons k2 v2 tl2 =>
    exact ⟨strBodyChars k ++ '"' :: ':'
        :: (v.stringify ++ ',' :: JsonFields.stringifyFields k2 v2 tl2),
      by simp [JsonFields.stringifyFields]⟩

/-! ## The parser inverts the renderer -/

mutual

theorem rtVal (j : Json) : ∀ (fuel : Nat) (rest : List Char),
    2 * (Json.stringify j).length < fuel → digHead rest = false →
    parseVal fuel (Json.stringify j ++ rest) = some (j, rest) := by
  cases j with
  | null =>
    intro fuel rest hf _
    cases fuel with
    | zero => exact absurd hf (by omega)
    | succ f => simp [Json.stringify, parseVal, dropLit]
  | bool b =>
    intro fuel rest hf _
    cases fuel with
    | zero => exact absurd hf (by omega)
    | succ f =>
      cases b with
      | true => simp [Json.stringify, parseVal, dropLit]
      | false => simp [Json.stringify, parseVal, dropLit]
  | num n =>
    intro fuel rest hf hd
    cases fuel with
    | zero => exact absurd hf (by omega)
    | succ f =>
      cases n with
      | ofNat m =>
        obtain ⟨c, cs, hm, hdig⟩ := natToChars_head_digit m
        obtain ⟨h1, h2, h3, h4, h5, h6, h7, _⟩ := isDig_ne_marks c hdig
        have hs : Json.stringify (Json.num (Int.ofNat m)) = natToChars m := by
          simp [Json.stringify, intToChars]
        rw [hs, hm]
        simp only [List.cons_append]
        simp [parseVal, h1, h2, h3, h4, h5, h6, h7, hdig]
        have e1 : c :: (cs ++ rest) = natToChars m ++ rest := by rw [hm]; simp
        rw [e1, parseNatAux_natToChars m rest 0]
        simp only [Nat.zero_mul, Nat.zero_add]
        rw [parseNatAux_stop m rest hd]
        exact ⟨rfl, rfl⟩
      | negSucc m =>
        have hs : Json.stringify (Json.num (Int.negSucc m)) = '-' :: natToChars (m + 1) := by
          simp [Json.stringify, intToChars]
        rw [hs]
        simp only [List.cons_append]
        simp [parseVal]
        obtain ⟨c, cs, hm, hdig⟩ := natToChars_head_digit (m + 1)
        rw [hm]
        simp only [List.cons_append]
        simp [parseNegNum, hdig]
        have e1 : c :: (cs ++ rest) = natToChars (m + 1) ++ rest := by rw [hm]; simp
        rw [e1, parseNatAux_natToChars (m + 1) rest 0]
        simp only [Nat.zero_mul, Nat.zero_add]
        rw [parseNatAux_stop (m + 1) rest hd]
        have hbm : ('-' : Char) ≠ lbrace := by decide
        rw [if_neg hbm]
        have hneg : -((m + 1 : Nat) : Int) = Int.negSucc m := by
          rw [Int.negSucc_eq]; push_cast; ring
        show some (Json.num (-((m + 1 : Nat) : Int)), rest) = some (Json.num (Int.negSucc m), rest)
        rw [hneg]
  | str s =>
    intro fuel rest hf _
    cases fuel with
    | zero => exact absurd hf (by omega)
    | succ f =>
      have hs : Json.stringify (Json.str s) = '"' :: (strBodyChars s ++ ['"']) := by
        simp [Json.stringify]
      rw [hs]
      simp [parseVal, parseStrBody_rt]
  | arr elems =>
    intro fuel rest hf _
    cases fuel with
    | zero => exact absurd hf (by omega)
    | succ f =>
      cases elems with
      | nil =>
        have hs : Json.stringify (Json.arr .nil) = ['[', ']'] := by simp [Json.stringify]
        rw [hs] at hf ⊢
        simp only [List.length_cons, List.length_nil] at hf
        cases f with
        | zero => omega
        | succ f2 => simp [parseVal, parseArrBody]
      | cons x tl =>
        have hs : Json.stringify (Json.arr (.cons x tl))
            = '[' :: (JsonList.stringifyElems x tl ++ [']']) := by simp [Json.stringify]
        rw [hs] at hf ⊢
        simp only [List.length_cons, List.length_append, List.length_nil] at hf
        simp only [List.cons_append, List.append_assoc, List.singleton_append]
        simp [parseVal]
        cases f with
        | zero => omega
        | succ f2 =>
          obtain ⟨c, cs, hse, hne⟩ := stringifyElems_head_ne_rbracket x tl
          rw [hse]
          simp only [List.cons_append]
          simp [parseArrBody, hne]
          have e1 : c :: (cs ++ ']' :: rest) = JsonList.stringifyElems x tl ++ ']' :: rest := by
            rw [hse]; simp
          rw [e1, rtElems x tl f2 rest (by omega)]
  | obj fields =>
    intro fuel rest hf _
    cases fuel with
    | zero => exact absurd hf (by omega)
    | succ f =>
      have hb1 : lbrace ≠ 'n' := by decide
      have hb2 : lbrace ≠ 't' := by decide
      have hb3 : lbrace ≠ 'f' := by decide
      have hb4 : lbrace ≠ '"' := by decide
      have hb5 : lbrace ≠ '[' := by decide
      cases fields with
      | nil =>
        have hs : Json.stringify (Json.obj .nil) = [lbrace, rbrace] := by simp [Json.stringify]
        rw [hs] at hf ⊢
        simp only [List.length_cons, List.length_nil] at hf
        cases f with
        | zero => omega
        | succ f2 => simp [parseVal, hb1, hb2, hb3, hb4, hb5, parseObjBody]
      | cons k v tl =>
        have hs : Json.stringify (Json.obj (.cons k v tl))
            = lbrace :: (JsonFields.stringifyFields k v tl ++ [rbrace]) := by
          simp [Json.stringify]
        rw [hs] at hf ⊢
        simp only [List.length_cons, List.length_append, List.length_nil] at hf
        simp only [List.cons_append, List.append_assoc, List.singleton_append]
        simp [parseVal, hb1, hb2, hb3, hb4, hb5]
        cases f with
        | zero => omega
        | succ f2 =>
          obtain ⟨cs, hfs⟩ := stringifyFields_head k v tl
          rw [hfs]
          simp only [List.cons_append]
          have hq : ('"' : Char) ≠ rbrace := by decide
          simp [parseObjBody, hq]
          have e1 : '"' :: (cs ++ rbrace :: rest)
              = JsonFields.stringifyFields k v tl ++ rbrace :: rest := by
            rw [hfs]; simp
          rw [e1, rtFields k v tl f2 rest (by omega)]
termination_by sizeOf j

theorem rtElems (x : Json) (tl : JsonList) : ∀ (fuel : Nat) (rest : List Char),
    2 * (JsonList.stringifyElems x tl).length + 2 < fuel →
    parseElems fuel (JsonList.stringifyElems x tl ++ ']' :: rest)
      = some (JsonList.cons x tl, rest) := by
  cases tl with
  | nil =>
    intro fuel rest hf
    cases fuel with
    | zero => exact absurd hf (by omega)
    | succ f =>
      have hse : JsonList.stringifyElems x .nil = Json.stringify x := by
        simp [JsonList.stringifyElems]
      rw [hse] at hf ⊢
      have hx : parseVal f (Json.stringify x ++ ']' :: rest) = some (x, ']' :: rest) :=
        rtVal x f (']' :: rest) (by omega) (by simp [digHead, isDig])
      simp [parseElems, hx]
  | cons y tl2 =>
    intro fuel rest hf
    cases fuel with
    | zero => exact absurd hf (by omega)
    | succ f =>
      have hse : JsonList.stringifyElems x (.cons y tl2)
          = Json.stringify x ++ ',' :: JsonList.stringifyElems y tl2 := by
        simp [JsonList.stringifyElems]
      rw [hse] at hf ⊢
      have hpos := stringify_length_pos x
      simp only [List.length_append, List.length_cons] at hf
      have hx : parseVal f
          (Json.stringify x ++ (',' :: (JsonList.stringifyElems y tl2 ++ ']' :: rest)))
          = some (x, ',' :: (JsonList.stringifyElems y tl2 ++ ']' :: rest)) :=
        rtVal x f _ (by omega) (by simp [digHead, isDig])
      have hrec : parseElems f (JsonList.stringifyElems y tl2 ++ ']' :: rest)
          = some (JsonList.cons y tl2, rest) :=
        rtElems y tl2 f rest (by omega)
      simp only [List.append_assoc, List.cons_append]
      simp [parseElems, hx, hrec]
termination_by 1 + sizeOf x + sizeOf tl

theorem rtFields (k : List Char) (v : Json) (tl : JsonFields) :
    ∀ (fuel : Nat) (rest : List Char),
    2 * (JsonFields.stringifyFields k v tl).length + 2 < fuel →
    parseFields fuel (JsonFields.stringifyFields k v tl ++ rbrace :: rest)
      = some (JsonFields.cons k v tl, rest) := by
  cases tl with
  | nil =>
    intro fuel rest hf
    cases fuel with
    | zero => exact absurd hf (by omega)
    | succ f =>
      have hse : JsonFields.stringifyFields k v .nil
          = ('"' :: (strBodyChars k ++ ['"'])) ++ ':' :: Json.stringify v := by
        simp [JsonFields.stringifyFields]
      rw [hse] at hf ⊢
      simp only [List.length_append, List.length_cons] at hf
      have hv : parseVal f (Json.stringify v ++ rbrace :: rest)
          = some (v, rbrace :: rest) :=
        rtVal v f _ (by omega) (by simp [digHead, isDig, rbrace])
      simp only [List.append_assoc, List.cons_append, List.singleton_append]
      have hcm : (rbrace : Char) ≠ ',' := by decide
      simp [parseFields, parseStrBody_rt, hv, hcm]
  | cons k2 v2 tl2 =>
    intro fuel rest hf
    cases fuel with
    | zero => exact absurd hf (by omega)
    | succ f =>
      have hse : JsonFields.stringifyFields k v (.cons k2 v2 tl2)
          = (('"' :: (strBodyChars k ++ ['"'])) ++ ':' :: Json.stringify v)
              ++ ',' :: JsonFields.stringifyFields k2 v2 tl2 := by
        simp [JsonFields.stringifyFields]
      rw [hse] at hf ⊢
      have hpos := stringify_length_pos v
      simp only [List.length_append, List.length_cons] at hf
      have hv : parseVal f
          (Json.stringify v ++ (',' :: (JsonFields.stringifyFields k2 v2 tl2 ++ rbrace :: rest)))
          = some (v, ',' :: (JsonFields.stringifyFields k2 v2 tl2 ++ rbrace :: rest)) :=
        rtVal v f _ (by omega) (by simp [digHead, isDig])
      have hrec : parseFields f (JsonFields.stringifyFields k2 v2 tl2 ++ rbrace :: rest)
          = some (JsonFields.cons k2 v2 tl2, rest) :=
        rtFields k2 v2 tl2 f rest (by omega)
      simp only [List.append_assoc, List.cons_append, List.singleton_append]
      simp [parseFields, parseStrBody_rt, hv, hrec]
termination_by 1 + sizeOf v + sizeOf tl

end

/-- JSON.parse inverts JSON.stringify on every JSON document: the
deep-equality round trip behind the Parsed output format. -/
theorem jsonParse_stringify (j : Json) : jsonParse (Json.stringify j) = some j := by
  unfold jsonParse
  have h := rtVal j (2 * (Json.stringify j).length + 2) [] (by omega) (by simp [digHead])
  rw [List.append_nil] at h
  rw [h]

/-! ## Retry executor lemma -/

theorem retry_all_retryable {α : Type} (backend : Nat → Attempt α)
    (hb : ∀ i, backend i = .failure true i) :
    ∀ (n idx : Nat), 1 ≤ n →
      retry n backend idx = (n, .error (.transport true (idx + n - 1))) := by
  intro n
  induction n with
  | zero => intro idx h; omega
  | succ m ih =>
    intro idx _
    by_cases hm : m = 0
    · subst hm
      simp [retry, hb idx]
    · have ihm := ih (idx + 1) (by omega)
      have hidx : idx + 1 + m - 1 = idx + (m + 1) - 1 := by omega
      simp [retry, hb idx, hm, ihm, hidx]

/-! ## Concrete fixtures used by the claim theorems -/

/-- Three listing pages with one key each; the first two are truncated. -/
def pagesThree : List ListPage :=
  [⟨["a"], true⟩, ⟨["b"], true⟩, ⟨["c"], false⟩]

/-- A truncated one-key listing page. -/
def oneKeyTruncatedPage : ListPage := ⟨["k"], true⟩

/-- A backend whose every Get succeeds with body "x". -/
def okGetBackend : Nat → Attempt GetData := fun _ => .success ⟨some "x".data⟩

/-- A backend whose first Get fails retryably and whose retried Get
succeeds with a response that has no Body. -/
def noBodyAfterRetryBackend : Nat → Attempt GetData :=
  fun i => if i = 0 then .failure true 0 else .success ⟨none⟩

/-- A Get backend whose every attempt fails retryably; the error of the
attempt with index i carries errId i. -/
def allRetryableGetBackend : Nat → Attempt GetData := fun i => .failure true i

/-- A Put backend whose every attempt fails retryably. -/
def allRetryablePutBackend : Nat → Attempt Nat := fun i => .failure true i

/-- A backend whose every Put succeeds with ack 0. -/
def okPutBackend : Nat → Attempt Nat := fun _ => .success 0

/-! ## Claim theorems -/

/-- C1: on a 3-page listing (truncated, truncated, final),
emptyS3Directory does eventually issue exactly 3 List calls and 3 batched
Delete calls and leaves no page under the prefix, but the promise returned
to the caller does not complete successfully: it rejects with the
TypeError raised by calling .bind on the Promise of the recursive call at
line 157. -/
theorem C1_empty_three_pages :
    emptyS3Directory (.str "bkt") (.str "dir/") pagesThree
      = ⟨[(.str "bkt", .str "dir/"), (.str "bkt", .str "dir/"), (.str "bkt", .str "dir/")],
         [["a"], ["b"], ["c"]], .error .typeError, []⟩ := rfl

/-- C2 counterexample: when the first Get attempt fails retryably and the
retried attempt succeeds with a response that has no Body, getObject does
not fail with FILE_NOT_FOUND: the retry path skips the Body check and, for
returnType "buffer", resolves the JavaScript undefined. -/
theorem C2_counterexample :
    getObject 5 noBodyAfterRetryBackend (.str "b") (.str "k") (.str "buffer") (.boolean false)
      = ⟨2, .ok .undef⟩ := rfl

/-- C2 (amended): only when the FIRST Get attempt succeeds with a response
carrying no payload body does getObject fail with FILE_NOT_FOUND, and then
it does so regardless of the requested (valid) output format, after
exactly one remote call. -/
theorem C2_first_attempt_body_check (retryMax : Nat) (backend : Nat → Attempt GetData)
    (bucket key : String) (rt : JsVal) (gz : Bool)
    (hrt : isAllowedRT rt = true) (hb : backend 0 = .success ⟨none⟩) :
    getObject retryMax backend (.str bucket) (.str key) rt (.boolean gz)
      = ⟨1, .error .fileNotFound⟩ := by
  cases rt with
  | str s =>
    simp only [isAllowedRT] at hrt
    simp [getObject, jsDefault, jsTypeof, isAllowedRT, hb, hrt]
  | num n => simp [isAllowedRT] at hrt
  | boolean b => simp [isAllowedRT] at hrt
  | undefined => simp [isAllowedRT] at hrt
  | null => simp [isAllowedRT] at hrt
  | jsonObj j => simp [isAllowedRT] at hrt

/-- C2 witness: the amended theorem at a concrete input. -/
theorem C2_witness :
    getObject 5 (fun _ => .success ⟨none⟩) (.str "b") (.str "k") (.str "object") (.boolean false)
      = ⟨1, .error .fileNotFound⟩ :=
  C2_first_attempt_body_check 5 (fun _ => .success ⟨none⟩) "b" "k" (.str "object") false rfl rfl

/-- C3 counterexample: an empty bucket name is not a non-empty string, yet
getObject accepts it (the check is only typeof) and issues the remote Get,
succeeding instead of failing with the validation error. -/
theorem C3_counterexample :
    getObject 5 okGetBackend (.str "") (.str "k") (.str "buffer") (.boolean false)
      = ⟨1, .ok (.bytes "x".data)⟩ := rfl

/-- C3 (amended): when typeof bucket or typeof key is not "string" (empty
strings are accepted), or the defaulted returnType is not one of the four
allowed strings, or the defaulted gzip is not a boolean, getObject fails
immediately with the BAD_PARAM_GetObject validation error and makes no
remote call. -/
theorem C3_typeof_validation (retryMax : Nat) (backend : Nat → Attempt GetData)
    (bucket key rt gz : JsVal)
    (h : jsTypeof bucket ≠ "string" ∨ jsTypeof key ≠ "string"
        ∨ ¬ isAllowedRT (jsDefault rt (.str "object"))
        ∨ jsTypeof (jsDefault gz (.boolean false)) ≠ "boolean") :
    getObject retryMax backend bucket key rt gz = ⟨0, .error (.badParam "GetObject")⟩ := by
  simp only [getObject]
  rw [if_pos h]

/-- C3 witness: the amended theorem at a concrete input with a numeric
bucket. -/
theorem C3_witness :
    getObject 5 okGetBackend (.num 3) (.str "k") (.str "buffer") (.boolean false)
      = ⟨0, .error (.badParam "GetObject")⟩ :=
  C3_typeof_validation 5 okGetBackend (.num 3) (.str "k") (.str "buffer") (.boolean false)
    (Or.inl (by decide))

/-- C4 counterexample: with maxAttempts = 1 and a backend whose attempts
all fail retryably (attempt index = errId), getObject issues 2 remote
calls, not 1, and surfaces the error of attempt index 1 (the second
attempt), not the error of the first attempt (errId 0). -/
theorem C4_counterexample :
    getObject 1 allRetryableGetBackend (.str "b") (.str "k") (.str "buffer") (.boolean false)
      = ⟨2, .error (.transport true 1)⟩ := rfl

/-- C4 (amended): for every maxAttempts = n with n at least 1, a Get or a
Put whose every attempt fails retryably issues 1 + n remote calls in total
(the initial attempt plus the n attempts of the retry executor), and the
surfaced error is the error of the final attempt, the one with index n. -/
theorem C4_retry_attempt_count (n : Nat) (hn : 1 ≤ n) :
    getObject n allRetryableGetBackend (.str "b") (.str "k") (.str "buffer") (.boolean false)
      = ⟨1 + n, .error (.transport true n)⟩
    ∧ putJsonObject n allRetryablePutBackend (.str "b") (.str "k") .null
      = ⟨1 + n, some "null".data, .error (.transport true n)⟩ := by
  have hg := retry_all_retryable allRetryableGetBackend (fun _ => rfl) n 1 hn
  have hp := retry_all_retryable allRetryablePutBackend (fun _ => rfl) n 1 hn
  have hone : 1 + n - 1 = n := by omega
  rw [hone] at hg hp
  constructor
  · simp [getObject, jsDefault, jsTypeof, isAllowedRT, allRetryableGetBackend, hg]
  · simp [putJsonObject, jsTypeof, jsonStringifyJs, allRetryablePutBackend, hp]

/-- C4 witness: the amended theorem at maxAttempts 1. -/
theorem C4_witness :
    getObject 1 allRetryableGetBackend (.str "b") (.str "k") (.str "buffer") (.boolean false)
      = ⟨1 + 1, .error (.transport true 1)⟩
    ∧ putJsonObject 1 allRetryablePutBackend (.str "b") (.str "k") .null
      = ⟨1 + 1, some "null".data, .error (.transport true 1)⟩ :=
  C4_retry_attempt_count 1 (by decide)

/-- C5: with the Parsed ("object") format and no compression, a payload
that JSON.parse rejects fails with the SyntaxError (the FormatError); with
compression requested, a malformed compressed stream fails with the
distinct zlib error (the DecompressionError); and the body that
putJsonObject sends for a structured value j parses back to a value
deep-equal to j. -/
theorem C5_parsed_format :
    (∀ b : List Char, jsonParse b = none →
        formatGetObjectResponse ⟨some b⟩ (.str "object") false = .error .syntaxError)
    ∧ (∀ b : List Char, gunzip b = .error .gunzipError →
        formatGetObjectResponse ⟨some b⟩ (.str "object") true = .error .gunzipError)
    ∧ (∀ (retryMax : Nat) (backend : Nat → Attempt Nat) (bucket key : String) (j : Json),
        (putJsonObject retryMax backend (.str bucket) (.str key) (.jsonObj j)).sentBody
            = some (Json.stringify j)
        ∧ formatGetObjectResponse ⟨some (Json.stringify j)⟩ (.str "object") false
            = .ok (.json j)) := by
  refine ⟨?_, ?_, ?_⟩
  · intro b h
    simp [formatGetObjectResponse, h]
  · intro b h
    simp [formatGetObjectResponse, h]
    rfl
  · intro retryMax backend bucket key j
    constructor
    · unfold putJsonObject
      simp only [jsTypeof]
      rw [if_neg (by simp)]
      cases hb : backend 0 with
      | success ack => simp [jsonStringifyJs]
      | failure r e => cases r <;> simp [jsonStringifyJs]
    · simp [formatGetObjectResponse, jsonParse_stringify]

/-- C5 witness: the theorem at concrete inputs: the unparseable payload
"hi", the uncompressed stream "hi" handed to gunzip, and the document 3
sent through putJsonObject. -/
theorem C5_witness :
    formatGetObjectResponse ⟨some "hi".data⟩ (.str "object") false = .error .syntaxError
    ∧ formatGetObjectResponse ⟨some "hi".data⟩ (.str "object") true = .error .gunzipError
    ∧ (putJsonObject 5 okPutBackend (.str "b") (.str "k") (.jsonObj (Json.num 3))).sentBody
        = some (Json.stringify (Json.num 3))
    ∧ formatGetObjectResponse ⟨some (Json.stringify (Json.num 3))⟩ (.str "object") false
        = .ok (.json (Json.num 3)) :=
  ⟨C5_parsed_format.1 "hi".data rfl,
   C5_parsed_format.2.1 "hi".data rfl,
   (C5_parsed_format.2.2 5 okPutBackend "b" "k" (Json.num 3)).1,
   (C5_parsed_format.2.2 5 okPutBackend "b" "k" (Json.num 3)).2⟩

/-- C6: with the Raw ("buffer") format, the formatter returns the payload
bytes unchanged when no decompression is requested, and returns the
original bytes of a compressed payload when decompression is requested:
the gzip round trip composed with the identity transform. -/
theorem C6_raw_identity_roundtrip (b : List Char) :
    formatGetObjectResponse ⟨some b⟩ (.str "buffer") false = .ok (.bytes b)
    ∧ formatGetObjectResponse ⟨some (gzipCompress b)⟩ (.str "buffer") true = .ok (.bytes b) := by
  constructor
  · rfl
  · simp [formatGetObjectResponse, gzipCompress, gzMagic, gunzip]
    rfl

/-- C7 counterexample: an empty bucket name and the primitive value null
(typeof null = "object") both pass putJsonObject validation: the call
issues the remote Put with body "null" and succeeds instead of failing
with the validation error. -/
theorem C7_counterexample :
    putJsonObject 5 okPutBackend (.str "") (.str "k") .null
      = ⟨1, some "null".data, .ok 0⟩ := rfl

/-- C7 (amended): when typeof bucket or typeof key is not "string" (empty
strings are accepted), or typeof value is not "object" (null, being
typeof "object", is accepted), putJsonObject fails immediately with the
BAD_PARAM_PutObject validation error and makes no remote call. -/
theorem C7_typeof_validation (retryMax : Nat) (backend : Nat → Attempt Nat)
    (bucket key json : JsVal)
    (h : jsTypeof bucket ≠ "string" ∨ jsTypeof key ≠ "string" ∨ jsTypeof json ≠ "object") :
    putJsonObject retryMax backend bucket key json
      = ⟨0, none, .error (.badParam "PutObject")⟩ := by
  simp only [putJsonObject]
  rw [if_pos h]

/-- C7 witness: the amended theorem at a concrete input with a numeric
value. -/
theorem C7_witness :
    putJsonObject 5 okPutBackend (.str "b") (.str "k") (.num 1)
      = ⟨0, none, .error (.badParam "PutObject")⟩ :=
  C7_typeof_validation 5 okPutBackend (.str "b") (.str "k") (.num 1)
    (Or.inr (Or.inr (by decide)))

/-- C8: the embedded recursion depth of emptyS3Directory on a listing of n
truncated one-key pages is n + 1: the self-recursion of line 157 creates
one activation frame per listing page, so call-stack usage grows linearly
with the number of pages instead of being bounded by an explicit loop. -/
theorem C8_recursion_depth (n : Nat) :
    emptyS3DirectoryDepth (List.replicate n oneKeyTruncatedPage) = n + 1 := by
  induction n with
  | zero => rfl
  | succ m ih =>
    have step : emptyS3DirectoryDepth (oneKeyTruncatedPage :: List.replicate m oneKeyTruncatedPage)
        = 1 + emptyS3DirectoryDepth (List.replicate m oneKeyTruncatedPage) := by
      simp [emptyS3DirectoryDepth, oneKeyTruncatedPage]
    rw [List.replicate_succ, step, ih]
    omega

/-- C9: omitting the returnType and gzip arguments (JavaScript default
parameters replace undefined) behaves exactly as requesting the Parsed
("object") format without compression. -/
theorem C9_default_output_format (retryMax : Nat) (backend : Nat → Attempt GetData)
    (bucket key : JsVal) :
    getObject retryMax backend bucket key .undefined .undefined
      = getObject retryMax backend bucket key (.str "object") (.boolean false) := rfl

/-- C10: emptyS3Directory performs no input validation: for every bucket
and dir value, string or not, it issues at least one remote List call
whose arguments are exactly the given values, and its outcome is either
success or the line-157 TypeError, never a validation error. -/
theorem C10_no_validation (bucket dir : JsVal) (pages : List ListPage) :
    1 ≤ (emptyS3Directory bucket dir pages).listArgs.length
    ∧ (emptyS3Directory bucket dir pages).listArgs.head? = some (bucket, dir)
    ∧ ((emptyS3Directory bucket dir pages).outcome = .ok ()
        ∨ (emptyS3Directory bucket dir pages).outcome = .error .typeError) := by
  cases pages with
  | nil => simp [emptyS3Directory]
  | cons page rest =>
    by_cases h : page.contents.length = 0
    · simp [emptyS3Directory, h]
    · by_cases ht : page.isTruncated
      · simp [emptyS3Directory, h, ht]
      · simp [emptyS3Directory, h, ht]

end S3JS
